import Mathlib

/-!
Verification development for the `web_server` repository (Go): an in-memory
key-value store exposed over HTTP, with a request counter and a periodic
background reporter.  The repository contains two revisions of `main.go`;
where their behaviour differs the model keeps one definition per revision
(suffixes `V1` and `V2`).

The Go `map[string]string` is embedded as an association list with the usual
map semantics: `mapInsert` overwrites in place or appends, `mapDelete`
removes the key, `List.lookup` reads, and `List.length` is the size (Go map
keys are unique, so on states reachable from the empty map the length is the
number of keys).
-/

/-- `data map[string]string` of the Go `Server` struct, as an association list. -/
abbrev Entries := List (String × String)

/-- `s.data[k] = v`: overwrite the entry for `k` in place if present, else append. -/
def mapInsert (k v : String) : Entries → Entries
  | [] => [(k, v)]
  | (k', v') :: rest => if k' = k then (k, v) :: rest else (k', v') :: mapInsert k v rest

/-- `delete(s.data, k)`: remove every entry whose key is `k`. -/
def mapDelete (k : String) (l : Entries) : Entries :=
  l.filter (fun p => p.1 ≠ k)

/-- The keys of an association list. -/
def keysOf (l : Entries) : List String := l.map Prod.fst

/-- Go map well-formedness: all keys distinct (true of every real Go map). -/
def nodupKeys (l : Entries) : Prop := (keysOf l).Nodup

instance (l : Entries) : Decidable (nodupKeys l) := by
  unfold nodupKeys; infer_instance

/-- The loop `for k, v := range payload do s.data[k] = v` of `postDataHandler`. -/
def mergeAll (payload : Entries) (d : Entries) : Entries :=
  payload.foldl (fun acc kv => mapInsert kv.1 kv.2 acc) d

/-- The copy loop of `getDataHandler`: `copyData := make(...); for k, v := range s.data do copyData[k] = v`. -/
def copyMap (l : Entries) : Entries :=
  l.foldl (fun acc kv => mapInsert kv.1 kv.2 acc) []

/-- The shared state of the Go `Server` struct: the key-value map and the
request counter (the mutex and shutdown channel carry no sequential state). -/
structure Server where
  data : Entries
  requests : Nat
  deriving DecidableEq, Repr

/-- `incRequests`: `s.requests++` (under the mutex in revision 1, caller-locked in revision 2). -/
def Server.incRequests (s : Server) : Server :=
  { s with requests := s.requests + 1 }

/-- The Store-level effect of `postDataHandler` on a successfully decoded
payload: merge the payload into `data` and count one request.  Revision 1
increments before the merge and revision 2 after; the resulting state is the
same. -/
def Server.put (s : Server) (payload : Entries) : Server :=
  { data := mergeAll payload s.data, requests := s.requests + 1 }

/-- The Store-level effect of `getDataHandler`: count one request and return
a copy of `data` built by the copy loop. -/
def Server.getAll (s : Server) : Server × Entries :=
  let s1 := s.incRequests
  (s1, copyMap s1.data)

/-- The Store-level effect of `deleteDataHandler` once a key reaches the
critical section: count the request, test `_, ok := s.data[key]`, delete when
present, and return `ok`. -/
def Server.del (s : Server) (key : String) : Server × Bool :=
  let s1 := s.incRequests
  let ok := (s1.data.lookup key).isSome
  let d := if ok then mapDelete key s1.data else s1.data
  ({ s1 with data := d }, ok)

/-- The Store-level effect of `statsHandler`: count the request first, then
read the counter and the map size from the same state. -/
def Server.stats (s : Server) : Server × Nat × Nat :=
  let s1 := s.incRequests
  (s1, s1.requests, s1.data.length)

/-- One Store operation, as classified by the spec. -/
inductive Op where
  | put (payload : Entries)
  | getAll
  | del (key : String)
  | stats
  deriving DecidableEq, Repr

/-- The state after one Store operation. -/
def applyOp (s : Server) : Op → Server
  | .put payload => s.put payload
  | .getAll => (s.getAll).1
  | .del key => (s.del key).1
  | .stats => (s.stats).1

/-- The state after a sequence of Store operations. -/
def runOps (s : Server) (ops : List Op) : Server :=
  ops.foldl applyOp s

/-- Split a character list at every occurrence of `sep`, keeping empty
fields, exactly as Go `strings.Split` does for a one-character separator. -/
def splitOnChar (sep : Char) : List Char → List (List Char)
  | [] => [[]]
  | c :: rest =>
    let r := splitOnChar sep rest
    if c = sep then [] :: r
    else
      match r with
      | [] => [[c]]
      | h :: t => (c :: h) :: t

/-- `strings.Split(r.URL.Path, "/")` of revision 2 `deleteDataHandler`. -/
def splitPath (path : String) : List String :=
  (splitOnChar '/' path.toList).map (fun cs => String.mk cs)

/-- An HTTP response as produced by a handler: either `http.Error` with a
status code, or a 200 response with a JSON object body. -/
inductive HResult where
  | err (status : Nat)
  | okJson (body : Entries)
  | okStats (body : List (String × Nat))
  deriving DecidableEq, Repr

/-- Revision 1 `postDataHandler`: `incRequests()` runs first, then the body is
decoded (`none` models a JSON decode failure), then the payload is merged
under the lock.  The route pattern has already matched the method. -/
def postDataHandlerV1 (s : Server) (body : Option Entries) : Server × HResult :=
  let s1 := s.incRequests
  match body with
  | none => (s1, .err 400)
  | some payload =>
      ({ s1 with data := mergeAll payload s1.data }, .okJson [("status", "ok")])

/-- Revision 2 `postDataHandler`: reject non-POST methods, then decode the
body; only on success take the lock, merge, and `incRequests()`. -/
def postDataHandlerV2 (s : Server) (method : String) (body : Option Entries) :
    Server × HResult :=
  if method ≠ "POST" then (s, .err 405)
  else
    match body with
    | none => (s, .err 400)
    | some payload =>
        (({ s with data := mergeAll payload s.data }).incRequests,
         .okJson [("status", "ok")])

/-- Revision 1 `deleteDataHandler`: `incRequests()` runs first; an empty
path-value key yields a 404 `missing key` response; otherwise the delete runs
under the lock and a missing key yields 404. -/
def deleteDataHandlerV1 (s : Server) (key : String) : Server × HResult :=
  let s1 := s.incRequests
  if key = "" then (s1, .err 404)
  else
    let ok := (s1.data.lookup key).isSome
    let d := if ok then mapDelete key s1.data else s1.data
    let s2 := { s1 with data := d }
    if ok then (s2, .okJson [("deleted", key)]) else (s2, .err 404)

/-- Revision 2 `deleteDataHandler`: reject non-DELETE methods, then split the
URL path on slashes; fewer than four parts or an empty fourth part yields a
400 `Key not specified` response before any Store access; otherwise
`incRequests()` and the delete run under one lock acquisition. -/
def deleteDataHandlerV2 (s : Server) (method path : String) : Server × HResult :=
  if method ≠ "DELETE" then (s, .err 405)
  else
    let parts := splitPath path
    if parts.length < 4 ∨ parts.getD 3 "" = "" then (s, .err 400)
    else
      let key := parts.getD 3 ""
      let s1 := s.incRequests
      let ok := (s1.data.lookup key).isSome
      let d := if ok then mapDelete key s1.data else s1.data
      let s2 := { s1 with data := d }
      if ok then (s2, .okJson [("deleted", key)]) else (s2, .err 404)

/-- Revision 1 `statsHandler` response: keys `requests` and `db_size`. -/
def statsHandlerV1 (s : Server) : Server × HResult :=
  let s1 := s.incRequests
  (s1, .okStats [("requests", s1.requests), ("db_size", s1.data.length)])

/-- Revision 2 `statsHandler` response: keys `total_requests` and `db_size`,
with the increment and both reads under one lock acquisition. -/
def statsHandlerV2 (s : Server) (method : String) : Server × HResult :=
  if method ≠ "GET" then (s, .err 405)
  else
    let s1 := s.incRequests
    (s1, .okStats [("total_requests", s1.requests), ("db_size", s1.data.length)])

/-- An event the background worker can wake on: a ticker tick or the
shutdown channel being closed.  `select` picks whichever fires. -/
inductive WorkerEvent where
  | tick
  | stopClosed
  deriving DecidableEq, Repr

/-- Revision 1 tick line: `Current requests: %d, Database size: %d`. -/
def reportLineV1 (req size : Nat) : String :=
  "Current requests: " ++ toString req ++ ", Database size: " ++ toString size

/-- Revision 2 tick line: `Current Requests: %d, Database size: %d`. -/
def reportLineV2 (req size : Nat) : String :=
  "Current Requests: " ++ toString req ++ ", Database size: " ++ toString size

/-- Revision 1 `startBackgroundWorker`, run over a sequence of wake events
against a fixed store state: each tick emits the status line built from a
lock-protected read of `requests` and `len(data)`; the first closed-signal
event emits `Worker stopped` and returns, consuming no further events. -/
def runWorkerV1 (s : Server) : List WorkerEvent → List String
  | [] => []
  | WorkerEvent.tick :: rest => reportLineV1 s.requests s.data.length :: runWorkerV1 s rest
  | WorkerEvent.stopClosed :: _ => ["Worker stopped"]

/-- Revision 2 `startBackgroundWorker`: same loop, but the tick line is
`Current Requests: ...` and the shutdown notice is `Worker Stopped`. -/
def runWorkerV2 (s : Server) : List WorkerEvent → List String
  | [] => []
  | WorkerEvent.tick :: rest => reportLineV2 s.requests s.data.length :: runWorkerV2 s rest
  | WorkerEvent.stopClosed :: _ => ["Worker Stopped"]

/- ### Basic lemmas about the map embedding -/

theorem lookup_mapInsert (k v : String) (l : Entries) :
    (mapInsert k v l).lookup k = some v := by
  induction l with
  | nil => simp [mapInsert]
  | cons hd tl ih =>
    obtain ⟨k', v'⟩ := hd
    by_cases h : k' = k
    · simp [mapInsert, h]
    · have hne : (k == k') = false := beq_eq_false_iff_ne.mpr (Ne.symm h)
      simp [mapInsert, h, List.lookup, hne, ih]

theorem mapInsert_idem (k v : String) (l : Entries) :
    mapInsert k v (mapInsert k v l) = mapInsert k v l := by
  induction l with
  | nil => simp [mapInsert]
  | cons hd tl ih =>
    obtain ⟨k', v'⟩ := hd
    by_cases h : k' = k
    · simp [mapInsert, h]
    · simp [mapInsert, h, ih]

theorem lookup_mapDelete (k : String) (l : Entries) :
    (mapDelete k l).lookup k = none := by
  induction l with
  | nil => simp [mapDelete]
  | cons hd tl ih =>
    obtain ⟨k', v'⟩ := hd
    by_cases h : k' = k
    · simpa [mapDelete, h] using ih
    · have hne : (k == k') = false := beq_eq_false_iff_ne.mpr (Ne.symm h)
      simpa [mapDelete, h, List.lookup, hne] using ih

theorem mapInsert_of_not_mem (k v : String) (l : Entries) (h : k ∉ keysOf l) :
    mapInsert k v l = l ++ [(k, v)] := by
  induction l with
  | nil => simp [mapInsert]
  | cons hd tl ih =>
    obtain ⟨k', v'⟩ := hd
    simp only [keysOf, List.map_cons, List.mem_cons] at h
    push_neg at h
    simp [mapInsert, Ne.symm h.1, ih (by simpa [keysOf] using h.2)]

theorem foldl_mapInsert_append (l acc : Entries)
    (hl : nodupKeys l) (hdisj : ∀ k, k ∈ keysOf l → k ∉ keysOf acc) :
    l.foldl (fun a kv => mapInsert kv.1 kv.2 a) acc = acc ++ l := by
  induction l generalizing acc with
  | nil => simp
  | cons hd tl ih =>
    obtain ⟨k, v⟩ := hd
    simp only [nodupKeys, keysOf, List.map_cons, List.nodup_cons] at hl
    have hk : k ∉ keysOf acc := hdisj k (by simp [keysOf])
    have step : mapInsert k v acc = acc ++ [(k, v)] := mapInsert_of_not_mem k v acc hk
    have hdisj' : ∀ k', k' ∈ keysOf tl → k' ∉ keysOf (acc ++ [(k, v)]) := by
      intro k' hk' hmem
      simp only [keysOf, List.map_append, List.map_cons, List.map_nil, List.mem_append,
        List.mem_singleton] at hmem
      rcases hmem with h1 | h2
      · exact hdisj k' (by simp only [keysOf, List.map_cons, List.mem_cons]; exact Or.inr hk') h1
      · exact hl.1 (h2 ▸ hk')
    have ih' := ih (acc ++ [(k, v)]) hl.2 hdisj'
    simp only [List.foldl_cons, step, ih', List.append_assoc, List.singleton_append]

theorem copyMap_eq_self (l : Entries) (h : nodupKeys l) : copyMap l = l := by
  unfold copyMap
  rw [foldl_mapInsert_append l [] h (by simp [keysOf])]
  simp

/- ### Claim theorems -/

/-- C1: for every store state, `Stats` returns exactly the pair
(requestCount, size) of the single post-increment state: the counter was
incremented by 1 before being read, so the returned count includes the Stats
call itself, and both components describe the same instant (the entries are
untouched). -/
theorem stats_consistent_pair (s : Server) :
    (s.stats).2.1 = (s.stats).1.requests ∧
    (s.stats).2.2 = (s.stats).1.data.length ∧
    (s.stats).1.requests = s.requests + 1 ∧
    (s.stats).1.data = s.data :=
  ⟨rfl, rfl, rfl, rfl⟩

/-- C2 counterexample: running the scenario Put, GetAll, Delete, GetAll, Stats
from the empty store, Stats returns requests = 5 (it counts itself), not 4 as
the claim states. -/
theorem scenario_stats_requests_ne_four :
    (let s1 := (Server.mk [] 0).put [("x", "1"), ("y", "2")]
     let g1 := s1.getAll
     let d := g1.1.del "x"
     let g2 := d.1.getAll
     let st := g2.1.stats
     g1.2 = [("x", "1"), ("y", "2")] ∧ d.2 = true ∧ g2.2 = [("y", "2")] ∧
       st.2 = (5, 1) ∧ st.2.1 ≠ 4) := by
  decide

/-- C2 amended: the scenario behaves as claimed except that Stats returns
requests = 5 (the four preceding operations plus the Stats call itself, which
is counted before the read) and db_size = 1. -/
theorem scenario_end_to_end :
    (let s1 := (Server.mk [] 0).put [("x", "1"), ("y", "2")]
     let g1 := s1.getAll
     let d := g1.1.del "x"
     let g2 := d.1.getAll
     let st := g2.1.stats
     g1.2 = [("x", "1"), ("y", "2")] ∧ d.2 = true ∧ g2.2 = [("y", "2")] ∧
       st.2.1 = 5 ∧ st.2.2 = 1) := by
  decide

/-- C3: every Store operation increments `requests` by exactly 1, so any
sequence of N operations increments it by N. -/
theorem counter_monotonic (s : Server) (ops : List Op) :
    (runOps s ops).requests = s.requests + ops.length := by
  induction ops generalizing s with
  | nil => rfl
  | cons op rest ih =>
    have h1 : (applyOp s op).requests = s.requests + 1 := by
      cases op <;> rfl
    calc (runOps s (op :: rest)).requests
        = (runOps (applyOp s op) rest).requests := rfl
      _ = (applyOp s op).requests + rest.length := ih (applyOp s op)
      _ = s.requests + (op :: rest).length := by
          rw [h1, List.length_cons]; omega

/-- C4 counterexample: in revision 1 a PUT/merge request whose body fails
JSON decoding still increments `requests` (the handler increments before
decoding), contradicting the claim that the counter is untouched. -/
theorem post_bad_json_v1_increments :
    (postDataHandlerV1 (Server.mk [] 0) none).1.requests = 1 ∧
    (postDataHandlerV1 (Server.mk [] 0) none).2 = HResult.err 400 ∧
    (1 : Nat) ≠ 0 := by
  decide

/-- C4 amended: on a JSON decode failure both revisions respond 400 and leave
`entries` unchanged with no merge performed; revision 2 makes no Store access
at all (state fully unchanged), but revision 1 has already incremented
`requests` by 1 before decoding. -/
theorem post_bad_json_behavior (s : Server) :
    postDataHandlerV1 s none = ({ s with requests := s.requests + 1 }, .err 400) ∧
    postDataHandlerV2 s "POST" none = (s, .err 400) := by
  constructor <;> rfl

/-- C5 counterexample: in revision 1 a DELETE request whose path-embedded key
is empty still increments `requests` (the handler increments first),
contradicting the claim that the counter is untouched. -/
theorem delete_empty_key_v1_increments :
    (deleteDataHandlerV1 (Server.mk [] 0) "").1.requests = 1 ∧
    (deleteDataHandlerV1 (Server.mk [] 0) "").2 = HResult.err 404 ∧
    (1 : Nat) ≠ 0 := by
  decide

/-- C5 amended: with an absent (empty) key both revisions respond with a 4xx
client error and leave `entries` unchanged; revision 2 (status 400) performs
no Store access at all, but revision 1 (status 404) has already incremented
`requests` by 1 before checking the key. -/
theorem delete_missing_key_behavior (s : Server) :
    deleteDataHandlerV1 s "" = ({ s with requests := s.requests + 1 }, .err 404) ∧
    deleteDataHandlerV2 s "DELETE" "/api/data/" = (s, .err 400) := by
  constructor <;> rfl

/-- C6: `Delete k` returns true iff `k` was present before the call, always
removes `k` from the entries, and increments `requests` by 1 regardless of
outcome; on the empty store it returns false with size 0, and Put of the pair
("a", "1") followed by Delete "a" returns true with size back to 0. -/
theorem delete_existence_signal (s : Server) (k : String) :
    ((s.del k).2 = true ↔ (s.data.lookup k).isSome = true) ∧
    (s.del k).1.data.lookup k = none ∧
    (s.del k).1.requests = s.requests + 1 ∧
    ((Server.mk [] 0).del k).2 = false ∧
    ((Server.mk [] 0).del k).1.data.length = 0 ∧
    (((Server.mk [] 0).put [("a", "1")]).del "a").2 = true ∧
    (((Server.mk [] 0).put [("a", "1")]).del "a").1.data.length = 0 := by
  refine ⟨Iff.rfl, ?_, rfl, rfl, rfl, by decide, by decide⟩
  by_cases hok : (s.data.lookup k).isSome
  · simp [Server.del, Server.incRequests, hok, lookup_mapDelete]
  · simp only [Server.del, Server.incRequests, hok, if_false, Bool.false_eq_true]
    simpa using Option.not_isSome_iff_eq_none.mp hok

/-- C7: `GetAll` on a well-formed store returns a snapshot equal to the
entries at the moment of the call, and a subsequent Put of a fresh key leaves
that snapshot different from the new entries — the copy is independent of
later mutation. -/
theorem getAll_snapshot_isolation (s : Server) (h : nodupKeys s.data) :
    (s.getAll).2 = s.data ∧
    ∀ k v, k ∉ keysOf s.data → ((s.getAll).1.put [(k, v)]).data ≠ (s.getAll).2 := by
  have hsnap : (s.getAll).2 = s.data := by
    simpa [Server.getAll, Server.incRequests] using copyMap_eq_self s.data h
  refine ⟨hsnap, ?_⟩
  intro k v hk heq
  have hput : ((s.getAll).1.put [(k, v)]).data = s.data ++ [(k, v)] := by
    simp [Server.put, Server.getAll, Server.incRequests, mergeAll,
      mapInsert_of_not_mem k v s.data hk]
  rw [hput, hsnap] at heq
  have hlen := congrArg List.length heq
  simp at hlen

/-- Witness for C7 at a concrete store. -/
theorem getAll_snapshot_isolation_witness :
    ((Server.mk [("a", "1")] 0).getAll).2 = [("a", "1")] ∧
    (((Server.mk [("a", "1")] 0).getAll).1.put [("b", "2")]).data ≠
      ((Server.mk [("a", "1")] 0).getAll).2 := by
  have h := getAll_snapshot_isolation (Server.mk [("a", "1")] 0) (by decide)
  exact ⟨h.1, h.2 "b" "2" (by decide)⟩

/-- C8: putting the payload with the single pair ("a", "1") twice leaves the
entries exactly as after one such put, with the key "a" bound to "1", while
`requests` grows by exactly 2. -/
theorem put_same_payload_twice (s : Server) :
    ((s.put [("a", "1")]).put [("a", "1")]).data = (s.put [("a", "1")]).data ∧
    ((s.put [("a", "1")]).put [("a", "1")]).data.lookup "a" = some "1" ∧
    ((s.put [("a", "1")]).put [("a", "1")]).requests = s.requests + 2 := by
  refine ⟨?_, ?_, rfl⟩
  · simp [Server.put, mergeAll, mapInsert_idem]
  · simp [Server.put, mergeAll, lookup_mapInsert]

/-- C9 counterexample: revision 2's worker tick line capitalizes Requests
(`Current Requests: ...`), so it is not exactly the claimed
`Current requests: <requestCount>, Database size: <size>` line. -/
theorem worker_tick_v2_line_mismatch :
    runWorkerV2 (Server.mk [] 0) [WorkerEvent.tick] ≠
      ["Current requests: 0, Database size: 0"] := by
  decide

/-- C9 amended: on every tick revision 1 emits exactly
`Current requests: <requestCount>, Database size: <size>` while revision 2
emits the same data as `Current Requests: ...`; both lines are built from the
lock-protected counter and map size, and when the stop signal closes each
revision emits its distinct shutdown notice (`Worker stopped` respectively
`Worker Stopped`) and terminates, processing no further ticks. -/
theorem worker_output_behavior (s : Server) (rest : List WorkerEvent) :
    runWorkerV1 s (WorkerEvent.tick :: rest) =
      ("Current requests: " ++ toString s.requests ++ ", Database size: " ++
        toString s.data.length) :: runWorkerV1 s rest ∧
    runWorkerV2 s (WorkerEvent.tick :: rest) =
      ("Current Requests: " ++ toString s.requests ++ ", Database size: " ++
        toString s.data.length) :: runWorkerV2 s rest ∧
    runWorkerV1 s (WorkerEvent.stopClosed :: rest) = ["Worker stopped"] ∧
    runWorkerV2 s (WorkerEvent.stopClosed :: rest) = ["Worker Stopped"] :=
  ⟨rfl, rfl, rfl, rfl⟩

/-- C10: the read-only operations `GetAll` and `Stats` leave the entries
mapping unchanged; the only field they mutate is `requests`, which grows
by 1. -/
theorem readonly_ops_frame (s : Server) :
    (s.getAll).1.data = s.data ∧ (s.getAll).1.requests = s.requests + 1 ∧
    (s.stats).1.data = s.data ∧ (s.stats).1.requests = s.requests + 1 :=
  ⟨rfl, rfl, rfl, rfl⟩
